import Mathlib

/-!
Shallow embedding of the snake game in `src/main.rs` (the most complete
draft: scene-based transitions).  Pure data is translated directly; the
two effectful inputs are made explicit:

* randomness: `rand::thread_rng().gen_range` becomes a stream
  `Rng : Nat → Nat × Nat` of raw draws together with a cursor index that
  every consumer threads through; one draw yields the pair used for the
  `x` and `y` calls of `new_fruit`;
* real time: the `last_tick.elapsed() >= TICK_SPEED_MS` test in
  `GameScene::update` becomes an explicit boolean argument.

The fruit respawn `while` loop of the source can, for an adversarial
random stream, run forever; it is embedded with an explicit fuel bound
and returns `none` when the fuel runs out (the source loops on).  Every
other `none`/`some` distinction mirrors the source's `Option` values.
-/

namespace Snek

def GRID_WIDTH : Int := 20
def GRID_HEIGHT : Int := 20
def TICK_SPEED_MS : Nat := 250

inductive Direction where
  | Up
  | Left
  | Down
  | Right
deriving DecidableEq, Repr

structure Position where
  x : Int
  y : Int
deriving DecidableEq, Repr

inductive SwapScene where
  | StartMenu
  | Game
  | GameOver
deriving DecidableEq, Repr

/-- The mutable fields of `GameScene` except `last_tick` (real time is
abstracted into the `tickElapsed` argument of `update`). -/
structure GameScene where
  direction : Direction
  bodyparts : List Position
  head_position : Position
  fruit_location : Position
  next_direction : Direction
deriving DecidableEq, Repr

/-- A stream of raw random draws; draw `i` supplies the two
`gen_range` calls of one `new_fruit` invocation. -/
def Rng : Type := Nat → Nat × Nat

/-- `rand::thread_rng().gen_range(lo..hi)`: a raw draw mapped into
`[lo, hi)`. -/
def gen_range (lo hi : Int) (r : Nat) : Int :=
  lo + (r : Int) % (hi - lo)

/-- `GameScene::new_fruit`: note the source samples from
`0..GRID_WIDTH - 1` and `0..GRID_HEIGHT - 1`, i.e. `[0, 19)`. -/
def new_fruit (r : Nat × Nat) : Position :=
  { x := gen_range 0 (GRID_WIDTH - 1) r.1
    y := gen_range 0 (GRID_HEIGHT - 1) r.2 }

/-- The fruit respawn loop `fruit = new_fruit(); while
bodyparts.contains(&fruit) { fruit = new_fruit() }`, with fuel bounding
the number of draws; returns the fruit and the advanced rng cursor. -/
def fruit_retry (body : List Position) (rng : Rng) : Nat → Nat → Option (Position × Nat)
  | 0, _ => none
  | Nat.succ fuel, i =>
      let f := new_fruit (rng i)
      if f ∈ body then fruit_retry body rng fuel (i + 1) else some (f, i + 1)

/-- The `match self.direction` head move in `GameScene::update`. -/
def step_head (d : Direction) (p : Position) : Position :=
  match d with
  | Direction.Up => { p with y := p.y - 1 }
  | Direction.Left => { p with x := p.x - 1 }
  | Direction.Down => { p with y := p.y + 1 }
  | Direction.Right => { p with x := p.x + 1 }

/-- The body of the `if self.last_tick.elapsed() >= TICK_SPEED_MS`
branch of `GameScene::update`: commit the buffered heading, move the
head, check bounds, handle fruit / tail, check self collision, append
the new head.  `VecDeque::pop_front` is `List.tail`, `push_back` is
append at the end.  Returns the updated scene, the swap request, and
the advanced rng cursor; `none` only when the fruit respawn loop runs
out of fuel. -/
def tick (g : GameScene) (rng : Rng) (i fuel : Nat) :
    Option (GameScene × Option SwapScene × Nat) :=
  let dir := g.next_direction
  let head := step_head dir g.head_position
  if head.x < 0 ∨ head.x ≥ GRID_WIDTH ∨ head.y < 0 ∨ head.y ≥ GRID_HEIGHT then
    some ({ g with direction := dir, head_position := head }, some SwapScene.GameOver, i)
  else
    let afterFruit : Option (GameScene × Nat) :=
      if head = g.fruit_location then
        match fruit_retry g.bodyparts rng fuel i with
        | none => none
        | some (f, i') =>
            some ({ g with direction := dir, head_position := head, fruit_location := f }, i')
      else
        some ({ g with direction := dir, head_position := head
                       bodyparts := g.bodyparts.tail }, i)
    match afterFruit with
    | none => none
    | some (g', i') =>
        if head ∈ g'.bodyparts then
          some (g', some SwapScene.GameOver, i')
        else
          some ({ g' with bodyparts := g'.bodyparts ++ [head] }, none, i')

/-- The four movement keys polled by `GameScene::handle_input`. -/
structure Keys where
  w : Bool
  a : Bool
  s : Bool
  d : Bool
deriving DecidableEq, Repr

/-- `if is_key_down(KeyCode::W) && self.direction != Direction::Down`. -/
def input_w (k : Keys) (g : GameScene) : GameScene :=
  if k.w = true ∧ g.direction ≠ Direction.Down then
    { g with next_direction := Direction.Up }
  else g

/-- `if is_key_down(KeyCode::A) && self.direction != Direction::Right`. -/
def input_a (k : Keys) (g : GameScene) : GameScene :=
  if k.a = true ∧ g.direction ≠ Direction.Right then
    { g with next_direction := Direction.Left }
  else g

/-- `if is_key_down(KeyCode::S) && self.direction != Direction::Up`. -/
def input_s (k : Keys) (g : GameScene) : GameScene :=
  if k.s = true ∧ g.direction ≠ Direction.Up then
    { g with next_direction := Direction.Down }
  else g

/-- `if is_key_down(KeyCode::D) && self.direction != Direction::Left`. -/
def input_d (k : Keys) (g : GameScene) : GameScene :=
  if k.d = true ∧ g.direction ≠ Direction.Left then
    { g with next_direction := Direction.Right }
  else g

/-- `GameScene::handle_input`: the four key checks run in order. -/
def handle_input (k : Keys) (g : GameScene) : GameScene :=
  input_d k (input_s k (input_a k (input_w k g)))

/-- `GameScene::update` for one frame: input is handled every frame,
the tick body only when the tick interval elapsed (`tickElapsed`). -/
def update (k : Keys) (tickElapsed : Bool) (g : GameScene) (rng : Rng) (i fuel : Nat) :
    Option (GameScene × Option SwapScene × Nat) :=
  let g := handle_input k g
  if tickElapsed then tick g rng i fuel else some (g, none, i)

/-- `GameScene::reset`: single body segment at the grid center, heading
`Up` both committed and buffered, fruit respawned off the body. -/
def reset (rng : Rng) (i fuel : Nat) : Option (GameScene × Nat) :=
  let head : Position := { x := GRID_WIDTH / 2, y := GRID_HEIGHT / 2 }
  let body : List Position := [head]
  match fruit_retry body rng fuel i with
  | none => none
  | some (f, i') =>
      some ({ direction := Direction.Up, bodyparts := body, head_position := head,
              fruit_location := f, next_direction := Direction.Up }, i')

/-- `GameScene::new`: initializes the same fields with the same values
as `reset` (plus `last_tick`, which is not modelled). -/
def GameScene_new (rng : Rng) (i fuel : Nat) : Option (GameScene × Nat) :=
  let head : Position := { x := GRID_WIDTH / 2, y := GRID_HEIGHT / 2 }
  let body : List Position := [head]
  match fruit_retry body rng fuel i with
  | none => none
  | some (f, i') =>
      some ({ direction := Direction.Up, bodyparts := body, head_position := head,
              fruit_location := f, next_direction := Direction.Up }, i')

/-- The active scene of the dispatcher: index 0, 1, 2 of `Game.scenes`. -/
inductive SceneId where
  | Menu
  | Playing
  | GameOver
deriving DecidableEq, Repr

/-- The dispatcher state: the active scene handle plus the game scene's
mutable data (the menu and game-over scenes hold only fixed buttons). -/
structure Game where
  active : SceneId
  gamescene : GameScene
deriving DecidableEq, Repr

/-- The `if let Some(s) = swap` arm of `Game::update`: `SwapScene::Game`
switches to index 1 and calls `reset` on it; the other variants only
switch the active handle. -/
def apply_swap (sw : Option SwapScene) (G : Game) (rng : Rng) (i fuel : Nat) :
    Option (Game × Nat) :=
  match sw with
  | none => some (G, i)
  | some SwapScene.StartMenu => some ({ G with active := SceneId.Menu }, i)
  | some SwapScene.Game =>
      match reset rng i fuel with
      | none => none
      | some (g, i') => some ({ active := SceneId.Playing, gamescene := g }, i')
  | some SwapScene.GameOver => some ({ G with active := SceneId.GameOver }, i)

/-- Button geometry; the `on_click` function pointer is modelled by the
`ClickResult` each concrete button returns. -/
structure Button where
  pos : Position
  width : Int
  height : Int
deriving DecidableEq, Repr

/-- `Button::is_mouse_over_button` on the truncated mouse coordinates. -/
def is_mouse_over_button (b : Button) (mx my : Int) : Bool :=
  decide (mx > b.pos.x) && decide (mx < b.pos.x + b.width) &&
    decide (my > b.pos.y) && decide (my < b.pos.y + b.height)

/-- Outcome of one menu / game-over frame: no action, a scene swap
request, or `exit(0)`. -/
inductive ClickResult where
  | noClick
  | swap (s : SwapScene)
  | exitProcess
deriving DecidableEq, Repr

def start_button : Button := { pos := { x := 250, y := 100 }, width := 300, height := 100 }

def menu_exit_button : Button := { pos := { x := 250, y := 300 }, width := 300, height := 100 }

def restart_button : Button := { pos := { x := 250, y := 100 }, width := 300, height := 100 }

def gameover_exit_button : Button := { pos := { x := 250, y := 300 }, width := 300, height := 100 }

/-- `Menu::update`: hover picks the active button, and the click fires
whenever `is_mouse_button_down` reports the button held. -/
def menu_update (mx my : Int) (mouseDown : Bool) : ClickResult :=
  let active : Option ClickResult :=
    if is_mouse_over_button start_button mx my then some (ClickResult.swap SwapScene.Game)
    else if is_mouse_over_button menu_exit_button mx my then some ClickResult.exitProcess
    else none
  if mouseDown then active.getD ClickResult.noClick else ClickResult.noClick

/-- `GameOver::update`: same shape as `Menu::update` with the restart
button in place of the start button. -/
def gameover_update (mx my : Int) (mouseDown : Bool) : ClickResult :=
  let active : Option ClickResult :=
    if is_mouse_over_button restart_button mx my then some (ClickResult.swap SwapScene.Game)
    else if is_mouse_over_button gameover_exit_button mx my then some ClickResult.exitProcess
    else none
  if mouseDown then active.getD ClickResult.noClick else ClickResult.noClick

/-- Run `n` consecutive ticks with no directional input, stopping at
the first tick that requests a scene swap (the source would leave the
scene then); `none` when some fruit respawn runs out of fuel. -/
def run_ticks (rng : Rng) (fuel : Nat) : Nat → GameScene → Nat → Option (GameScene × Option SwapScene × Nat)
  | 0, g, i => some (g, none, i)
  | Nat.succ n, g, i =>
      match tick g rng i fuel with
      | none => none
      | some (g', some sw, i') => some (g', some sw, i')
      | some (g', none, i') => run_ticks rng fuel n g' i'

/-- Reverse of a heading; used to state the no-instant-reversal
invariant. -/
def Direction.reverse : Direction → Direction
  | Direction.Up => Direction.Down
  | Direction.Down => Direction.Up
  | Direction.Left => Direction.Right
  | Direction.Right => Direction.Left

/-- Unit-vector x component of a heading. -/
def dir_dx : Direction → Int
  | Direction.Up => 0
  | Direction.Down => 0
  | Direction.Left => -1
  | Direction.Right => 1

/-- Unit-vector y component of a heading. -/
def dir_dy : Direction → Int
  | Direction.Up => -1
  | Direction.Down => 1
  | Direction.Left => 0
  | Direction.Right => 0

/-- The moved head is inside the grid, phrased as the negation of the
exact out-of-bounds test of `GameScene::update`. -/
def in_bounds (p : Position) : Prop :=
  ¬(p.x < 0 ∨ p.x ≥ GRID_WIDTH ∨ p.y < 0 ∨ p.y ≥ GRID_HEIGHT)

/-- Invariant of the no-input run from the reset state: after `k` ticks
the head sits at `(10, 10 - k)` heading `Up`, and every body cell lies
on column 10 with `10 - k ≤ y ≤ 10`. -/
def colInv (k : Nat) (g : GameScene) : Prop :=
  g.head_position = ⟨10, 10 - (k : Int)⟩ ∧ g.next_direction = Direction.Up ∧
    ∀ p ∈ g.bodyparts, p.x = 10 ∧ 10 - (k : Int) ≤ p.y ∧ p.y ≤ 10

/-! Concrete runs used as exhibits and witnesses. -/

/-- A random stream whose every draw lands on cell `(10, 9)`. -/
def rng10_9 : Rng := fun _ => (10, 9)

/-- A random stream whose every draw lands on cell `(0, 0)`. -/
def rng00 : Rng := fun _ => (0, 0)

/-- The reset state when the first fruit draw is `(10, 9)`. -/
def gStart : GameScene :=
  { direction := Direction.Up, bodyparts := [⟨10, 10⟩], head_position := ⟨10, 10⟩,
    fruit_location := ⟨10, 9⟩, next_direction := Direction.Up }

/-- The reset state when the first fruit draw is `(0, 0)`. -/
def gStart0 : GameScene :=
  { direction := Direction.Up, bodyparts := [⟨10, 10⟩], head_position := ⟨10, 10⟩,
    fruit_location := ⟨0, 0⟩, next_direction := Direction.Up }

/-- `gStart` after one tick eating the fruit, replacement draw `(10, 9)`. -/
def gAfterEat : GameScene :=
  { direction := Direction.Up, bodyparts := [⟨10, 10⟩, ⟨10, 9⟩], head_position := ⟨10, 9⟩,
    fruit_location := ⟨10, 9⟩, next_direction := Direction.Up }

/-- `gStart` after one tick eating the fruit, replacement draw `(0, 0)`. -/
def gAfterEat0 : GameScene :=
  { direction := Direction.Up, bodyparts := [⟨10, 10⟩, ⟨10, 9⟩], head_position := ⟨10, 9⟩,
    fruit_location := ⟨0, 0⟩, next_direction := Direction.Up }

/-- `gStart0` after two no-input ticks. -/
def gTwo : GameScene :=
  { direction := Direction.Up, bodyparts := [⟨10, 8⟩], head_position := ⟨10, 8⟩,
    fruit_location := ⟨0, 0⟩, next_direction := Direction.Up }

/-- `gStart0` after ten no-input ticks: head at `(10, 0)`. -/
def gTen : GameScene :=
  { direction := Direction.Up, bodyparts := [⟨10, 0⟩], head_position := ⟨10, 0⟩,
    fruit_location := ⟨0, 0⟩, next_direction := Direction.Up }

/-- `gStart0` after eleven no-input ticks: head out of bounds at
`(10, -1)`, game over. -/
def gEleven : GameScene :=
  { direction := Direction.Up, bodyparts := [⟨10, 0⟩], head_position := ⟨10, -1⟩,
    fruit_location := ⟨0, 0⟩, next_direction := Direction.Up }

/-- Key state with only `S` (request `Down`) held. -/
def kS : Keys := { w := false, a := false, s := true, d := false }

/-- Key state with no movement key held. -/
def kNone : Keys := { w := false, a := false, s := false, d := false }

/-- Two consecutive frames with the pointer at `(400, 150)` and the
pointer button held down on both. -/
def held_frames : List (Int × Int × Bool) := [(400, 150, true), (400, 150, true)]

/-! ### Helper lemmas -/

/-- Whatever fruit the respawn loop returns was rejected against the
body it was given: it lies on none of those cells. -/
theorem fruit_retry_not_mem (body : List Position) (rng : Rng) :
    ∀ fuel i f i', fruit_retry body rng fuel i = some (f, i') → f ∉ body := by
  intro fuel
  induction fuel with
  | zero => intro i f i' h; simp [fruit_retry] at h
  | succ n ih =>
      intro i f i' h
      simp only [fruit_retry] at h
      split at h
      · exact ih _ _ _ h
      · next hm =>
          simp only [Option.some.injEq, Prod.mk.injEq] at h
          obtain ⟨h1, -⟩ := h
          rw [← h1]
          exact hm

/-- Exhaustive description of a completed tick: the committed heading,
the buffered heading and the moved head, plus one of the five ways the
tick body can run (out of bounds; fruit eaten with or without self
collision; plain move with or without self collision). -/
theorem tick_some_shape (g : GameScene) (rng : Rng) (i fuel : Nat)
    (g' : GameScene) (sw : Option SwapScene) (i' : Nat)
    (h : tick g rng i fuel = some (g', sw, i')) :
    g'.direction = g.next_direction ∧
    g'.next_direction = g.next_direction ∧
    g'.head_position = step_head g.next_direction g.head_position ∧
    (let hd := step_head g.next_direction g.head_position
     (¬in_bounds hd ∧ sw = some SwapScene.GameOver ∧
        g'.bodyparts = g.bodyparts ∧ g'.fruit_location = g.fruit_location ∧ i' = i) ∨
     (in_bounds hd ∧ hd = g.fruit_location ∧ hd ∈ g.bodyparts ∧
        sw = some SwapScene.GameOver ∧ g'.bodyparts = g.bodyparts) ∨
     (in_bounds hd ∧ hd = g.fruit_location ∧ hd ∉ g.bodyparts ∧ sw = none ∧
        g'.bodyparts = g.bodyparts ++ [hd] ∧ g'.fruit_location ∉ g.bodyparts) ∨
     (in_bounds hd ∧ hd ≠ g.fruit_location ∧ hd ∈ g.bodyparts.tail ∧
        sw = some SwapScene.GameOver ∧ g'.bodyparts = g.bodyparts.tail ∧
        g'.fruit_location = g.fruit_location) ∨
     (in_bounds hd ∧ hd ≠ g.fruit_location ∧ hd ∉ g.bodyparts.tail ∧ sw = none ∧
        g'.bodyparts = g.bodyparts.tail ++ [hd] ∧
        g'.fruit_location = g.fruit_location)) := by
  simp only [tick] at h
  set hd := step_head g.next_direction g.head_position with hhd
  by_cases hb : hd.x < 0 ∨ hd.x ≥ GRID_WIDTH ∨ hd.y < 0 ∨ hd.y ≥ GRID_HEIGHT
  · rw [if_pos hb] at h
    simp only [Option.some.injEq, Prod.mk.injEq] at h
    obtain ⟨rfl, rfl, rfl⟩ := h
    refine ⟨rfl, rfl, rfl, Or.inl ⟨?_, rfl, rfl, rfl, rfl⟩⟩
    simp only [in_bounds]
    exact fun hc => hc hb
  · rw [if_neg hb] at h
    have hinb : in_bounds hd := hb
    by_cases he : hd = g.fruit_location
    · rw [if_pos he] at h
      cases hr : fruit_retry g.bodyparts rng fuel i with
      | none => rw [hr] at h; cases h
      | some fi =>
          obtain ⟨f, i2⟩ := fi
          rw [hr] at h
          simp only at h
          by_cases hc : hd ∈ g.bodyparts
          · rw [if_pos hc] at h
            simp only [Option.some.injEq, Prod.mk.injEq] at h
            obtain ⟨rfl, rfl, rfl⟩ := h
            exact ⟨rfl, rfl, rfl, Or.inr (Or.inl ⟨hinb, he, hc, rfl, rfl⟩)⟩
          · rw [if_neg hc] at h
            simp only [Option.some.injEq, Prod.mk.injEq] at h
            obtain ⟨rfl, rfl, rfl⟩ := h
            exact ⟨rfl, rfl, rfl,
              Or.inr (Or.inr (Or.inl ⟨hinb, he, hc, rfl, rfl,
                fruit_retry_not_mem g.bodyparts rng fuel i f i2 hr⟩))⟩
    · rw [if_neg he] at h
      simp only at h
      by_cases hc : hd ∈ g.bodyparts.tail
      · rw [if_pos hc] at h
        simp only [Option.some.injEq, Prod.mk.injEq] at h
        obtain ⟨rfl, rfl, rfl⟩ := h
        exact ⟨rfl, rfl, rfl, Or.inr (Or.inr (Or.inr (Or.inl ⟨hinb, he, hc, rfl, rfl, rfl⟩)))⟩
      · rw [if_neg hc] at h
        simp only [Option.some.injEq, Prod.mk.injEq] at h
        obtain ⟨rfl, rfl, rfl⟩ := h
        exact ⟨rfl, rfl, rfl, Or.inr (Or.inr (Or.inr (Or.inr ⟨hinb, he, hc, rfl, rfl, rfl⟩)))⟩

/-- `handle_input` writes only `next_direction`. -/
theorem handle_input_fields (k : Keys) (g : GameScene) :
    (handle_input k g).direction = g.direction ∧
    (handle_input k g).bodyparts = g.bodyparts ∧
    (handle_input k g).head_position = g.head_position ∧
    (handle_input k g).fruit_location = g.fruit_location := by
  unfold handle_input input_w input_a input_s input_d
  split_ifs <;> exact ⟨rfl, rfl, rfl, rfl⟩

/-- A single `handle_input` call never buffers the reverse of the
committed heading: every write is guarded by the corresponding
`self.direction != ...` check. -/
theorem handle_input_next_safe (k : Keys) (g : GameScene)
    (h : g.next_direction ≠ g.direction.reverse) :
    (handle_input k g).next_direction ≠ g.direction.reverse := by
  obtain ⟨d, bp, hp, fr, nd⟩ := g
  unfold handle_input input_w input_a input_s input_d
  simp only at h
  split_ifs <;>
    first
      | exact h
      | (cases d <;> simp_all [Direction.reverse])

/-- Any number of `handle_input` calls within one tick leaves the
committed heading unchanged and never buffers its reverse. -/
theorem handle_input_list (ks : List Keys) :
    ∀ g : GameScene, g.next_direction ≠ g.direction.reverse →
      (ks.foldl (fun s k => handle_input k s) g).direction = g.direction ∧
      (ks.foldl (fun s k => handle_input k s) g).next_direction ≠ g.direction.reverse := by
  induction ks with
  | nil => intro g h; exact ⟨rfl, h⟩
  | cons k ks ih =>
      intro g h
      simp only [List.foldl_cons]
      have hf := handle_input_fields k g
      have hs := handle_input_next_safe k g h
      have h' : (handle_input k g).next_direction ≠ (handle_input k g).direction.reverse := by
        rw [hf.1]; exact hs
      obtain ⟨a, b⟩ := ih (handle_input k g) h'
      rw [hf.1] at a b
      exact ⟨a, b⟩

/-- What `reset` produces: a single body segment at the grid center,
head on it, both headings `Up`, and a fruit off the body. -/
theorem reset_spec (rng : Rng) (i fuel : Nat) (g : GameScene) (i' : Nat)
    (h : reset rng i fuel = some (g, i')) :
    g.bodyparts = [⟨10, 10⟩] ∧ g.head_position = ⟨10, 10⟩ ∧
    g.direction = Direction.Up ∧ g.next_direction = Direction.Up ∧
    g.fruit_location ∉ g.bodyparts := by
  simp only [reset] at h
  split at h
  · cases h
  · next f i2 hr =>
      simp only [Option.some.injEq, Prod.mk.injEq] at h
      obtain ⟨rfl, rfl⟩ := h
      refine ⟨by norm_num [GRID_WIDTH, GRID_HEIGHT],
        by norm_num [GRID_WIDTH, GRID_HEIGHT, Position.mk.injEq], rfl, rfl, ?_⟩
      exact fruit_retry_not_mem _ _ _ _ _ _ hr

/-- One tick under the column invariant (`k ≤ 9`): the tick completes
with no swap and the invariant advances to `k + 1`. -/
theorem tick_col_step (k : Nat) (hk : k ≤ 9) (g : GameScene) (rng : Rng) (i fuel : Nat)
    (g' : GameScene) (sw : Option SwapScene) (i' : Nat)
    (inv : colInv k g)
    (h : tick g rng i fuel = some (g', sw, i')) :
    sw = none ∧ colInv (k + 1) g' := by
  obtain ⟨hhd, hnd, hbody⟩ := inv
  obtain ⟨-, hnd', hhead, hcases⟩ := tick_some_shape g rng i fuel g' sw i' h
  have hstep : step_head g.next_direction g.head_position = ⟨10, 10 - (k : Int) - 1⟩ := by
    rw [hnd, hhd]; rfl
  have hinb : in_bounds (step_head g.next_direction g.head_position) := by
    rw [hstep]
    show ¬((10 : Int) < 0 ∨ (10 : Int) ≥ GRID_WIDTH ∨
      10 - (k : Int) - 1 < 0 ∨ 10 - (k : Int) - 1 ≥ GRID_HEIGHT)
    simp only [GRID_WIDTH, GRID_HEIGHT]
    push_neg
    refine ⟨by omega, by omega, by omega, by omega⟩
  have hnotmem : step_head g.next_direction g.head_position ∉ g.bodyparts := by
    rw [hstep]
    intro hm
    obtain ⟨hx, hy1, hy2⟩ := hbody _ hm
    have hy1' : (10 : Int) - (k : Int) ≤ 10 - (k : Int) - 1 := hy1
    omega
  have hhead' : g'.head_position = ⟨10, 10 - ((k + 1 : Nat) : Int)⟩ := by
    rw [hhead, hstep]
    simp only [Position.mk.injEq, true_and]
    push_cast
    ring
  have hbound : ∀ p ∈ g.bodyparts, p.x = 10 ∧ 10 - ((k + 1 : Nat) : Int) ≤ p.y ∧ p.y ≤ 10 := by
    intro p hp
    obtain ⟨hx, hy1, hy2⟩ := hbody p hp
    refine ⟨hx, by push_cast; omega, hy2⟩
  have hhdmem : ∀ p ∈ [step_head g.next_direction g.head_position],
      p.x = 10 ∧ 10 - ((k + 1 : Nat) : Int) ≤ p.y ∧ p.y ≤ 10 := by
    intro p hp
    rw [List.mem_singleton] at hp
    subst hp
    rw [hstep]
    refine ⟨rfl, ?_, ?_⟩
    · show (10 : Int) - ((k + 1 : Nat) : Int) ≤ 10 - (k : Int) - 1
      push_cast
      omega
    · show (10 : Int) - (k : Int) - 1 ≤ 10
      omega
  rcases hcases with ⟨hnb, -⟩ | ⟨-, -, hc, -⟩ | ⟨-, -, -, hsw, hb, -⟩ |
    ⟨-, -, hc, -⟩ | ⟨-, -, -, hsw, hb, -⟩
  · exact absurd hinb hnb
  · exact absurd hc hnotmem
  · refine ⟨hsw, hhead', by rw [hnd']; exact hnd, ?_⟩
    rw [hb]
    intro p hp
    rcases List.mem_append.mp hp with hp | hp
    · exact hbound p hp
    · exact hhdmem p hp
  · exact absurd (List.mem_of_mem_tail hc) hnotmem
  · refine ⟨hsw, hhead', by rw [hnd']; exact hnd, ?_⟩
    rw [hb]
    intro p hp
    rcases List.mem_append.mp hp with hp | hp
    · exact hbound p (List.mem_of_mem_tail hp)
    · exact hhdmem p hp

/-- A tick from the invariant at `k = 10` (head at `(10, 0)`) moves the
head to `(10, -1)`, which is out of bounds: game over. -/
theorem tick_go_step (g : GameScene) (rng : Rng) (i fuel : Nat)
    (g' : GameScene) (sw : Option SwapScene) (i' : Nat)
    (inv : colInv 10 g)
    (h : tick g rng i fuel = some (g', sw, i')) :
    sw = some SwapScene.GameOver := by
  obtain ⟨hhd, hnd, -⟩ := inv
  obtain ⟨-, -, -, hcases⟩ := tick_some_shape g rng i fuel g' sw i' h
  have hstep : step_head g.next_direction g.head_position = ⟨10, 10 - ((10 : Nat) : Int) - 1⟩ := by
    rw [hnd, hhd]; rfl
  have hnin : ¬in_bounds (step_head g.next_direction g.head_position) := by
    rw [hstep]
    simp only [in_bounds, not_not]
    refine Or.inr (Or.inr (Or.inl ?_))
    omega
  rcases hcases with ⟨-, hsw, -⟩ | ⟨hib, -⟩ | ⟨hib, -⟩ | ⟨hib, -⟩ | ⟨hib, -⟩
  · exact hsw
  · exact absurd hib hnin
  · exact absurd hib hnin
  · exact absurd hib hnin
  · exact absurd hib hnin

/-- Running `n` ticks with `n + k ≤ 10` from the column invariant
yields no scene swap and re-establishes the invariant at `k + n`. -/
theorem run_col_none (rng : Rng) (fuel : Nat) (n : Nat) :
    ∀ (k : Nat), n + k ≤ 10 →
      ∀ (g : GameScene) (i : Nat) (g' : GameScene) (sw : Option SwapScene) (i' : Nat),
        colInv k g → run_ticks rng fuel n g i = some (g', sw, i') →
        sw = none ∧ colInv (k + n) g' := by
  induction n with
  | zero =>
      intro k hk g i g' sw i' inv h
      simp only [run_ticks, Option.some.injEq, Prod.mk.injEq] at h
      obtain ⟨rfl, hsw, -⟩ := h
      exact ⟨hsw.symm, by simpa using inv⟩
  | succ n ih =>
      intro k hk g i g' sw i' inv h
      simp only [run_ticks] at h
      cases ht : tick g rng i fuel with
      | none => rw [ht] at h; cases h
      | some r =>
          obtain ⟨g1, sw1, i1⟩ := r
          rw [ht] at h
          obtain ⟨hsw1, inv1⟩ := tick_col_step k (by omega) g rng i fuel g1 sw1 i1 inv ht
          subst hsw1
          simp only at h
          obtain ⟨hsw, inv'⟩ := ih (k + 1) (by omega) g1 i1 g' sw i' inv1 h
          refine ⟨hsw, ?_⟩
          have : k + (n + 1) = k + 1 + n := by omega
          rw [this]
          exact inv'

/-- Running exactly enough ticks to reach step 11 from the column
invariant ends in the game-over swap. -/
theorem run_col_gameover (rng : Rng) (fuel : Nat) (n : Nat) :
    ∀ (k : Nat), n + k = 11 → 1 ≤ n →
      ∀ (g : GameScene) (i : Nat) (g' : GameScene) (sw : Option SwapScene) (i' : Nat),
        colInv k g → run_ticks rng fuel n g i = some (g', sw, i') →
        sw = some SwapScene.GameOver := by
  induction n with
  | zero => intro k hk hn; omega
  | succ n ih =>
      intro k hk hn g i g' sw i' inv h
      simp only [run_ticks] at h
      cases ht : tick g rng i fuel with
      | none => rw [ht] at h; cases h
      | some r =>
          obtain ⟨g1, sw1, i1⟩ := r
          rw [ht] at h
          by_cases hn0 : n = 0
          · subst hn0
            have hk10 : k = 10 := by omega
            subst hk10
            have hsw1 := tick_go_step g rng i fuel g1 sw1 i1 inv ht
            subst hsw1
            simp only [Option.some.injEq, Prod.mk.injEq] at h
            obtain ⟨-, hsw, -⟩ := h
            exact hsw.symm
          · have hk9 : k ≤ 9 := by omega
            obtain ⟨hsw1, inv1⟩ := tick_col_step k hk9 g rng i fuel g1 sw1 i1 inv ht
            subst hsw1
            simp only at h
            exact ih (k + 1) (by omega) (by omega) g1 i1 g' sw i' inv1 h

/-! ### Claim theorems -/

/-- Claim C1 (code bug exhibit): starting from a reset whose fruit
draw landed on `(10, 9)`, one tick moves the head onto the fruit; the
replacement fruit is rejected only against the body before the new
head is appended, so the draw `(10, 9)` is accepted and, once the tick
completes, the fruit coincides with an occupied body cell (the new
head's cell).  This contradicts the claimed at-rest invariant. -/
theorem fruit_spawn_on_new_head_bug :
    reset rng10_9 0 2 = some (gStart, 1) ∧
    tick gStart rng10_9 1 2 = some (gAfterEat, none, 2) ∧
    gAfterEat.fruit_location ∈ gAfterEat.bodyparts ∧
    gAfterEat.fruit_location = gAfterEat.head_position := by decide

/-- Claim C2: on a tick that does not end in a game-over swap, the
body length grows by exactly one when the moved head equals the fruit
position and is unchanged otherwise. -/
theorem tick_body_length (g g' : GameScene) (rng : Rng) (i fuel i' : Nat)
    (hne : g.bodyparts ≠ [])
    (h : tick g rng i fuel = some (g', none, i')) :
    g'.bodyparts.length =
      (if step_head g.next_direction g.head_position = g.fruit_location
       then g.bodyparts.length + 1 else g.bodyparts.length) := by
  obtain ⟨-, -, -, hcases⟩ := tick_some_shape g rng i fuel g' none i' h
  have hlen : 0 < g.bodyparts.length := List.length_pos.mpr hne
  rcases hcases with ⟨-, hsw, -⟩ | ⟨-, -, -, hsw, -⟩ | ⟨-, he, -, -, hb, -⟩ |
    ⟨-, -, -, hsw, -⟩ | ⟨-, he, -, -, hb, -⟩
  · cases hsw
  · cases hsw
  · rw [if_pos he, hb]; simp
  · cases hsw
  · rw [if_neg he, hb]
    simp only [List.length_append, List.length_tail, List.length_singleton]
    omega

/-- Claim C2 witness: a concrete fruit-eating tick from `gStart`,
growing the body from one segment to two. -/
theorem tick_body_length_witness :
    gAfterEat.bodyparts.length =
      (if step_head gStart.next_direction gStart.head_position = gStart.fruit_location
       then gStart.bodyparts.length + 1 else gStart.bodyparts.length) :=
  tick_body_length gStart gAfterEat rng10_9 1 2 2 (by decide) (by decide)

/-- Claim C3: across any sequence of key polls within one tick the
committed heading is unchanged and the buffered heading is never its
direct reverse, so the heading committed at the next tick boundary is
never the reverse of the previous committed heading. -/
theorem heading_never_reversed (g : GameScene) (ks : List Keys) (rng : Rng)
    (i fuel : Nat) (g' : GameScene) (sw : Option SwapScene) (i' : Nat)
    (h : g.next_direction ≠ g.direction.reverse)
    (ht : tick (ks.foldl (fun s k => handle_input k s) g) rng i fuel = some (g', sw, i')) :
    (ks.foldl (fun s k => handle_input k s) g).direction = g.direction ∧
    (ks.foldl (fun s k => handle_input k s) g).next_direction ≠ g.direction.reverse ∧
    g'.direction ≠ g.direction.reverse := by
  obtain ⟨hd, hn⟩ := handle_input_list ks g h
  refine ⟨hd, hn, ?_⟩
  obtain ⟨hdir, -, -, -⟩ := tick_some_shape _ rng i fuel g' sw i' ht
  rw [hdir]
  exact hn

/-- Claim C3 witness: committed `Up` plus a frame requesting `Down`
(`S` held) leaves both the buffered and the next committed heading
away from `Down`. -/
theorem heading_never_reversed_witness :
    ([kS].foldl (fun s k => handle_input k s) gStart).direction = gStart.direction ∧
    ([kS].foldl (fun s k => handle_input k s) gStart).next_direction ≠ gStart.direction.reverse ∧
    gAfterEat0.direction ≠ gStart.direction.reverse :=
  heading_never_reversed gStart [kS] rng00 1 1 gAfterEat0 none 2 (by decide) (by decide)

/-- Claim C4 (code bug exhibit): `new_fruit` draws both coordinates
from `gen_range(0..GRID_WIDTH - 1)`, i.e. `[0, 19)`, so both
coordinates are at most 18 and the unoccupied boundary cell `(19, 0)`
can never be returned, contradicting the claim that the sampling range
covers all of `[0, 20) × [0, 20)`. -/
theorem new_fruit_range_bug :
    ∀ r : Nat × Nat, (new_fruit r).x ≤ 18 ∧ (new_fruit r).y ≤ 18 ∧
      new_fruit r ≠ ⟨19, 0⟩ := by
  intro r
  refine ⟨?_, ?_, ?_⟩ <;>
    simp [new_fruit, gen_range, GRID_WIDTH, GRID_HEIGHT, Position.mk.injEq] <;>
    omega

/-- Claim C5: after `N` completed ticks with no input and no game-over
the head has moved exactly `N` unit vectors along the constant heading
(the buffered heading, which is also preserved). -/
theorem head_offset_after_ticks (N : Nat) :
    ∀ (g g' : GameScene) (rng : Rng) (fuel i i' : Nat),
      run_ticks rng fuel N g i = some (g', none, i') →
      g'.head_position = ⟨g.head_position.x + N * dir_dx g.next_direction,
                          g.head_position.y + N * dir_dy g.next_direction⟩ ∧
      g'.next_direction = g.next_direction := by
  induction N with
  | zero =>
      intro g g' rng fuel i i' h
      simp only [run_ticks, Option.some.injEq, Prod.mk.injEq] at h
      obtain ⟨rfl, -, -⟩ := h
      refine ⟨?_, rfl⟩
      cases hp : g.head_position
      simp
  | succ n ih =>
      intro g g' rng fuel i i' h
      simp only [run_ticks] at h
      cases ht : tick g rng i fuel with
      | none => rw [ht] at h; cases h
      | some r =>
          obtain ⟨g1, sw1, i1⟩ := r
          rw [ht] at h
          cases sw1 with
          | some s => simp at h
          | none =>
              simp only at h
              obtain ⟨hoff, hnd⟩ := ih g1 g' rng fuel i1 i' h
              obtain ⟨-, hnd1, hhead, -⟩ := tick_some_shape g rng i fuel g1 none i1 ht
              rw [hnd1] at hoff hnd
              rw [hhead] at hoff
              refine ⟨?_, hnd⟩
              rw [hoff]
              cases hdd : g.next_direction <;>
                cases hp : g.head_position <;>
                  (simp [step_head, dir_dx, dir_dy, Position.mk.injEq]; omega)

/-- Claim C5 witness: two ticks heading `Up` from `(10, 10)` put the
head at `(10, 8)`. -/
theorem head_offset_after_ticks_witness :
    gTwo.head_position = ⟨gStart0.head_position.x + 2 * dir_dx gStart0.next_direction,
                          gStart0.head_position.y + 2 * dir_dy gStart0.next_direction⟩ ∧
    gTwo.next_direction = gStart0.next_direction :=
  head_offset_after_ticks 2 gStart0 gTwo rng00 1 1 1 (by decide)

/-- Claim C6: from any reset state, ten no-input ticks complete with
no scene swap and the eleventh returns the game-over swap (the head's
`y` first reaches `-1` there); and in general a tick whose moved head
is out of bounds returns `Some(GameOver)` immediately, with the body
and fruit untouched. -/
theorem gameover_at_tick_eleven
    (rng : Rng) (i fuel : Nat) (g0 : GameScene) (i0 : Nat)
    (ga gb : GameScene) (swa swb : Option SwapScene) (ia ib : Nat)
    (gX : GameScene) (rng2 : Rng) (j fuel2 : Nat)
    (h0 : reset rng i fuel = some (g0, i0))
    (h10 : run_ticks rng fuel 10 g0 i0 = some (ga, swa, ia))
    (h11 : run_ticks rng fuel 11 g0 i0 = some (gb, swb, ib))
    (hoob : (step_head gX.next_direction gX.head_position).x < 0 ∨
        (step_head gX.next_direction gX.head_position).x ≥ GRID_WIDTH ∨
        (step_head gX.next_direction gX.head_position).y < 0 ∨
        (step_head gX.next_direction gX.head_position).y ≥ GRID_HEIGHT) :
    swa = none ∧ swb = some SwapScene.GameOver ∧
    tick gX rng2 j fuel2 =
      some ({ gX with direction := gX.next_direction
                      head_position := step_head gX.next_direction gX.head_position },
        some SwapScene.GameOver, j) := by
  obtain ⟨hb, hh, -, hnd, -⟩ := reset_spec rng i fuel g0 i0 h0
  have inv0 : colInv 0 g0 := by
    refine ⟨?_, hnd, ?_⟩
    · rw [hh]; simp [Position.mk.injEq]
    · rw [hb]
      intro p hp
      rw [List.mem_singleton] at hp
      subst hp
      refine ⟨rfl, ?_, ?_⟩
      · show (10 : Int) - ((0 : Nat) : Int) ≤ 10
        omega
      · show (10 : Int) ≤ 10
        omega
  refine ⟨(run_col_none rng fuel 10 0 (by omega) g0 i0 ga swa ia inv0 h10).1,
    run_col_gameover rng fuel 11 0 (by omega) (by omega) g0 i0 gb swb ib inv0 h11, ?_⟩
  simp only [tick]
  rw [if_pos hoob]

/-- Claim C6 witness: the concrete no-input run from `gStart0` (ticks
1-10 silent, tick 11 game over) and the out-of-bounds tick from
`gTen`. -/
theorem gameover_at_tick_eleven_witness :
    (none : Option SwapScene) = none ∧
    (some SwapScene.GameOver : Option SwapScene) = some SwapScene.GameOver ∧
    tick gTen rng00 1 2 =
      some ({ gTen with direction := gTen.next_direction
                        head_position := step_head gTen.next_direction gTen.head_position },
        some SwapScene.GameOver, 1) :=
  gameover_at_tick_eleven rng00 0 2 gStart0 1 gTen gEleven none (some SwapScene.GameOver) 1 1
    gTen rng00 1 2 (by decide) (by decide) (by decide) (by decide)

/-- Claim C7: on a frame where the tick interval has not elapsed,
`update` returns no swap and leaves head, body, fruit and the
committed heading unchanged; only `next_direction` may change (input
is polled every frame). -/
theorem non_tick_frame_preserves_state (k : Keys) (g : GameScene) (rng : Rng) (i fuel : Nat) :
    update k false g rng i fuel = some (handle_input k g, none, i) ∧
    (handle_input k g).head_position = g.head_position ∧
    (handle_input k g).bodyparts = g.bodyparts ∧
    (handle_input k g).fruit_location = g.fruit_location ∧
    (handle_input k g).direction = g.direction := by
  obtain ⟨h1, h2, h3, h4⟩ := handle_input_fields k g
  exact ⟨rfl, h3, h2, h4, h1⟩

/-- Claim C8: every dispatcher transition into the Playing state (the
`SwapScene::Game` request, raised by the start and restart buttons)
resets the game scene: single segment at `(10, 10)`, head there, both
headings `Up`, fruit off the body. -/
theorem enter_playing_resets (G : Game) (rng : Rng) (i fuel : Nat) (G' : Game) (i' : Nat)
    (h : apply_swap (some SwapScene.Game) G rng i fuel = some (G', i')) :
    G'.active = SceneId.Playing ∧
    G'.gamescene.bodyparts = [⟨10, 10⟩] ∧
    G'.gamescene.head_position = ⟨10, 10⟩ ∧
    G'.gamescene.direction = Direction.Up ∧
    G'.gamescene.next_direction = Direction.Up ∧
    G'.gamescene.fruit_location ∉ G'.gamescene.bodyparts := by
  simp only [apply_swap] at h
  split at h
  · cases h
  · next g i2 hr =>
      simp only [Option.some.injEq, Prod.mk.injEq] at h
      obtain ⟨rfl, rfl⟩ := h
      obtain ⟨hb, hh, hdir, hnd, hf⟩ := reset_spec rng i fuel g i2 hr
      exact ⟨rfl, hb, hh, hdir, hnd, by rw [hb] at hf ⊢; exact hf⟩

/-- Claim C8 witness: a concrete `SwapScene::Game` dispatch from the
menu scene. -/
theorem enter_playing_resets_witness :
    (Game.mk SceneId.Playing gStart0).active = SceneId.Playing ∧
    (Game.mk SceneId.Playing gStart0).gamescene.bodyparts = [⟨10, 10⟩] ∧
    (Game.mk SceneId.Playing gStart0).gamescene.head_position = ⟨10, 10⟩ ∧
    (Game.mk SceneId.Playing gStart0).gamescene.direction = Direction.Up ∧
    (Game.mk SceneId.Playing gStart0).gamescene.next_direction = Direction.Up ∧
    (Game.mk SceneId.Playing gStart0).gamescene.fruit_location ∉
      (Game.mk SceneId.Playing gStart0).gamescene.bodyparts :=
  enter_playing_resets (Game.mk SceneId.Menu gStart) rng00 0 1
    (Game.mk SceneId.Playing gStart0) 1 (by decide)

/-- Claim C9 (counterexample): the scenes poll the pointer button
with the level-triggered `is_mouse_button_down`, so across two
consecutive frames with the pointer held down at `(400, 150)` (inside
the start/restart button), the action fires on both frames — in
particular on the second frame, where no down-transition occurred —
refuting the claim that activation fires only on a transition to
down. -/
theorem button_level_trigger_counterexample :
    held_frames.map (fun f => menu_update f.1 f.2.1 f.2.2) =
      [ClickResult.swap SwapScene.Game, ClickResult.swap SwapScene.Game] ∧
    held_frames.map (fun f => gameover_update f.1 f.2.1 f.2.2) =
      [ClickResult.swap SwapScene.Game, ClickResult.swap SwapScene.Game] := by decide

/-- Claim C9 (amended): a button's action fires on every frame on
which the pointer button is down while the pointer is within the
button's rectangle (level-triggered polling); holding the button down
over consecutive frames fires the action on each of those frames. -/
theorem button_fires_on_every_held_frame :
    ∀ (mx my : Int) (down : Bool),
      (menu_update mx my down = ClickResult.swap SwapScene.Game ↔
        down = true ∧ is_mouse_over_button start_button mx my = true) ∧
      (gameover_update mx my down = ClickResult.swap SwapScene.Game ↔
        down = true ∧ is_mouse_over_button restart_button mx my = true) := by
  intro mx my down
  cases down <;>
    constructor <;>
      simp only [menu_update, gameover_update] <;>
        split_ifs with h1 h2 <;>
          simp_all

/-- Claim C10: the body is non-empty after `GameScene::new`, after
`reset`, and after every completed `update` (including ones returning
a game-over swap), so the `..len - 1` sub-range taken by
`GameScene::draw` never underflows. -/
theorem bodyparts_nonempty :
    (∀ (rng : Rng) (i fuel : Nat) (g : GameScene) (i' : Nat),
        GameScene_new rng i fuel = some (g, i') → g.bodyparts ≠ []) ∧
    (∀ (rng : Rng) (i fuel : Nat) (g : GameScene) (i' : Nat),
        reset rng i fuel = some (g, i') → g.bodyparts ≠ []) ∧
    (∀ (k : Keys) (e : Bool) (g : GameScene) (rng : Rng) (i fuel : Nat)
        (g' : GameScene) (sw : Option SwapScene) (i' : Nat),
        g.bodyparts ≠ [] → update k e g rng i fuel = some (g', sw, i') →
        g'.bodyparts ≠ [] ∧ g'.bodyparts.length - 1 + 1 = g'.bodyparts.length) := by
  refine ⟨?_, ?_, ?_⟩
  · intro rng i fuel g i' h
    rw [(reset_spec rng i fuel g i' h).1]
    simp
  · intro rng i fuel g i' h
    rw [(reset_spec rng i fuel g i' h).1]
    simp
  · intro k e g rng i fuel g' sw i' hne h
    suffices hs : g'.bodyparts ≠ [] by
      have := List.length_pos.mpr hs
      exact ⟨hs, by omega⟩
    cases e with
    | false =>
        replace h : some (handle_input k g, (none : Option SwapScene), i) = some (g', sw, i') := h
        simp only [Option.some.injEq, Prod.mk.injEq] at h
        obtain ⟨rfl, -, -⟩ := h
        rw [(handle_input_fields k g).2.1]
        exact hne
    | true =>
        replace h : tick (handle_input k g) rng i fuel = some (g', sw, i') := h
        have hbp : (handle_input k g).bodyparts = g.bodyparts := (handle_input_fields k g).2.1
        obtain ⟨-, -, -, hcases⟩ := tick_some_shape _ rng i fuel g' sw i' h
        rcases hcases with ⟨-, -, hb, -⟩ | ⟨-, -, -, -, hb⟩ | ⟨-, -, -, -, hb, -⟩ |
          ⟨-, -, hcm, -, hb, -⟩ | ⟨-, -, -, -, hb, -⟩
        · rw [hb, hbp]; exact hne
        · rw [hb, hbp]; exact hne
        · rw [hb]; simp
        · rw [hb]; exact List.ne_nil_of_mem hcm
        · rw [hb]; simp

/-- Claim C10 witness: a concrete completed tick whose result has a
non-empty body. -/
theorem bodyparts_nonempty_witness :
    gAfterEat.bodyparts ≠ [] ∧
    gAfterEat.bodyparts.length - 1 + 1 = gAfterEat.bodyparts.length :=
  bodyparts_nonempty.2.2 kNone true gStart rng10_9 1 2 gAfterEat none 2 (by decide) (by decide)

end Snek
